import Mathlib

/-!
Shallow embedding of the `poll_oneoff` and `proc_fork` syscalls of the
wasmer WASI layer (`lib/wasi/src/syscalls/wasi/poll_oneoff.rs` and
`lib/wasi/src/syscalls/wasix/proc_fork.rs`), together with theorems that
settle the specification claims about them.

Machine integers are modelled as `Nat`; `std::time::Duration` is modelled
as a number of nanoseconds, with `Duration::MAX` as the distinguished
value `durationMax`.  `u32` values written to guest memory with
`to_ne_bytes` are modelled as four little-endian bytes.
-/

namespace WasmerSpec

/-- The subset of `Errno` codes used by the embedded syscalls. -/
inductive Errno where
  | success
  | access
  | inval
  | badf
  | perm
  | memviolation
  | again
  | timedout
  | overflow
  | notcapable
deriving DecidableEq, Repr

/-- Clock identifiers (`Clockid`). -/
inductive Clockid where
  | realtime
  | monotonic
  | processCputimeId
  | threadCputimeId
deriving DecidableEq, Repr

/-- `SubscriptionClock`: clock id plus requested timeout in nanoseconds. -/
structure SubscriptionClock where
  clock_id : Clockid
  timeout : Nat
deriving DecidableEq, Repr

/-- Subscription event types (`Eventtype`). -/
inductive Eventtype where
  | fdRead
  | fdWrite
  | clock
deriving DecidableEq, Repr

/-- The `data` union of a subscription.  The Rust code reads the union
field selected by `type_` with an `unsafe` access; we model the union as
a record holding both variants. -/
structure SubscriptionUnion where
  fd_readwrite : Nat
  clock : SubscriptionClock
deriving DecidableEq, Repr

/-- A guest subscription record (`Subscription`). -/
structure Subscription where
  userdata : Nat
  type_ : Eventtype
  data : SubscriptionUnion
deriving DecidableEq, Repr

/-- A poll-event bit set (`PollEventSet`). -/
abbrev PollEventSet := Nat

/-- `PollEvent::PollIn` as a `PollEventSet` bit. -/
def pollIn : PollEventSet := 1

/-- `PollEvent::PollOut` as a `PollEventSet` bit. -/
def pollOut : PollEventSet := 2

def __WASI_STDIN_FILENO : Nat := 0
def __WASI_STDOUT_FILENO : Nat := 1
def __WASI_STDERR_FILENO : Nat := 2

/-- The relevant part of an fd-table entry: whether the entry's rights
set contains `Rights::POLL_FD_READWRITE`, and whether
`InodeValFilePollGuard::new` succeeds on the entry's inode. -/
structure FdEntry where
  rights_poll_fd_readwrite : Bool
  inode_pollable : Bool
deriving DecidableEq, Repr

/-- The filesystem collaborators consumed by `poll_oneoff_internal`:
`state.fs.get_fd`, and the outcome of building a poll guard on the
stdout / stderr inodes via `WasiInodes::stdout` / `WasiInodes::stderr`
(already mapped through `fs_error_into_wasi_err`). -/
structure FsState where
  get_fd : Nat → Except Errno FdEntry
  stdout_guard : Except Errno Unit
  stderr_guard : Except Errno Unit

/-- `Duration::MAX` in nanoseconds: `u64::MAX` seconds plus
`999_999_999` nanoseconds. -/
def durationMax : Nat := (2 ^ 64 - 1) * 1000000000 + 999999999

/-- One in-flight subscription triple `(Option<WasiFd>, PollEventSet,
Subscription)` as produced by `poll_oneoff` and consumed by
`poll_oneoff_internal`. -/
abbrev Sub3 := Option Nat × PollEventSet × Subscription

/-- The mutable state threaded through the first (validation) loop of
`poll_oneoff_internal`: the processed subscription triples (with `fd`
and `peb` updated in place), the accumulated `clock_subs`, and
`time_to_sleep`. -/
structure ClockAcc where
  processed : List Sub3
  clock_subs : List (SubscriptionClock × Nat)
  time_to_sleep : Nat
deriving DecidableEq, Repr

/-- One iteration of the validation loop of `poll_oneoff_internal`
(poll_oneoff.rs lines 171-239).  fd-read / fd-write subscriptions on
fds other than stdin / stdout / stderr are looked up in the fd table
and must hold `Rights::POLL_FD_READWRITE` (`Errno::Access` otherwise);
clock subscriptions are restricted to realtime / monotonic
(`Errno::Inval` otherwise), duplicates (same clock id and userdata as
an already recorded clock sub) are skipped, a timeout of `0` sets
`time_to_sleep` to `Duration::MAX`, a timeout of `1` sets it to zero,
and any other timeout sets it to that many nanoseconds and records the
clock subscription. -/
def validateStep (fs : FsState) (acc : ClockAcc) : Sub3 → Except Errno ClockAcc
  | (fd0, peb, s) =>
    match s.type_ with
    | .fdRead =>
      let file_descriptor := s.data.fd_readwrite
      if file_descriptor = __WASI_STDIN_FILENO ∨ file_descriptor = __WASI_STDOUT_FILENO ∨
          file_descriptor = __WASI_STDERR_FILENO then
        .ok { acc with processed := acc.processed ++ [(some file_descriptor, peb ||| pollIn, s)] }
      else
        match fs.get_fd file_descriptor with
        | .error err => .error err
        | .ok fd_entry =>
          if fd_entry.rights_poll_fd_readwrite then
            .ok { acc with
                  processed := acc.processed ++ [(some file_descriptor, peb ||| pollIn, s)] }
          else
            .error .access
    | .fdWrite =>
      let file_descriptor := s.data.fd_readwrite
      if file_descriptor = __WASI_STDIN_FILENO ∨ file_descriptor = __WASI_STDOUT_FILENO ∨
          file_descriptor = __WASI_STDERR_FILENO then
        .ok { acc with processed := acc.processed ++ [(some file_descriptor, peb ||| pollOut, s)] }
      else
        match fs.get_fd file_descriptor with
        | .error err => .error err
        | .ok fd_entry =>
          if fd_entry.rights_poll_fd_readwrite then
            .ok { acc with
                  processed := acc.processed ++ [(some file_descriptor, peb ||| pollOut, s)] }
          else
            .error .access
    | .clock =>
      let clock_info := s.data.clock
      if clock_info.clock_id = Clockid.realtime ∨ clock_info.clock_id = Clockid.monotonic then
        if acc.clock_subs.any fun c =>
            c.1.clock_id = clock_info.clock_id ∧ c.2 = s.userdata then
          .ok { acc with processed := acc.processed ++ [(fd0, peb, s)] }
        else if clock_info.timeout = 0 then
          .ok { acc with
                processed := acc.processed ++ [(fd0, peb, s)]
                time_to_sleep := durationMax }
        else if clock_info.timeout = 1 then
          .ok { acc with
                processed := acc.processed ++ [(fd0, peb, s)]
                time_to_sleep := 0 }
        else
          .ok { acc with
                processed := acc.processed ++ [(fd0, peb, s)]
                clock_subs := acc.clock_subs ++ [(clock_info, s.userdata)]
                time_to_sleep := clock_info.timeout }
      else
        .error .inval

/-- The validation loop, folded over the subscription list with early
return of the first error. -/
def validateGo (fs : FsState) : List Sub3 → ClockAcc → Except Errno ClockAcc
  | [], acc => .ok acc
  | x :: rest, acc =>
    match validateStep fs acc x with
    | .error e => .error e
    | .ok acc1 => validateGo fs rest acc1

/-- The initial validation state: nothing processed, no clock subs, and
`time_to_sleep = Duration::MAX` (poll_oneoff.rs line 166). -/
def initAcc : ClockAcc := ⟨[], [], durationMax⟩

/-- The whole first pass of `poll_oneoff_internal`. -/
def validateSubs (fs : FsState) (subs : List Sub3) : Except Errno ClockAcc :=
  validateGo fs subs initAcc

/-- A constructed per-fd pollable guard (`InodeValFilePollGuard`). -/
structure PollGuard where
  fd : Nat
  peb : PollEventSet
  s : Subscription
deriving DecidableEq, Repr

/-- The guard-construction loop of `poll_oneoff_internal`
(poll_oneoff.rs lines 247-297).  Subscriptions with `fd = None`
(clock subscriptions) are skipped; fd `2` builds a guard on the stderr
inode and fd `1` on the stdout inode, neither with a rights check; any
other fd (including stdin, fd `0`) is looked up in the fd table, must
hold `Rights::POLL_FD_READWRITE` (`Errno::Access` otherwise), and must
have a pollable inode (`Errno::Badf` otherwise). -/
def buildGuardsGo (fs : FsState) : List Sub3 → List PollGuard → Except Errno (List PollGuard)
  | [], fd_guards => .ok fd_guards
  | (fd0, peb, s) :: rest, fd_guards =>
    match fd0 with
    | none => buildGuardsGo fs rest fd_guards
    | some fd =>
      if fd = __WASI_STDERR_FILENO then
        match fs.stderr_guard with
        | .error e => .error e
        | .ok _ => buildGuardsGo fs rest (fd_guards ++ [⟨fd, peb, s⟩])
      else if fd = __WASI_STDOUT_FILENO then
        match fs.stdout_guard with
        | .error e => .error e
        | .ok _ => buildGuardsGo fs rest (fd_guards ++ [⟨fd, peb, s⟩])
      else
        match fs.get_fd fd with
        | .error e => .error e
        | .ok fd_entry =>
          if fd_entry.rights_poll_fd_readwrite then
            if fd_entry.inode_pollable then
              buildGuardsGo fs rest (fd_guards ++ [⟨fd, peb, s⟩])
            else
              .error .badf
          else
            .error .access

/-- The two passes of `poll_oneoff_internal` up to the construction of
the `PollBatch`: validation of every subscription, then guard
construction over the processed triples. -/
def pollOneoffChecks (fs : FsState) (subs : List Sub3) :
    Except Errno (ClockAcc × List PollGuard) :=
  match validateSubs fs subs with
  | .error e => .error e
  | .ok acc =>
    match buildGuardsGo fs acc.processed [] with
    | .error e => .error e
    | .ok guards => .ok (acc, guards)

/-- The `asyncify_time` argument computed from `time_to_sleep`
(poll_oneoff.rs lines 304-317): a zero duration stays `Some ZERO`
(non-blocking), `Duration::MAX` becomes `None` (infinite wait), and
any other duration is passed through. -/
def asyncifyTime (time_to_sleep : Nat) : Option Nat :=
  if time_to_sleep = 0 then some 0
  else if time_to_sleep = durationMax then none
  else some time_to_sleep

/-- A triggered event (`Event`); `u_clock` is the `clock` variant of
the event union. -/
structure Event where
  userdata : Nat
  error : Errno
  type_ : Eventtype
  u_clock : Nat
deriving DecidableEq, Repr

/-- One poll step of `PollBatch` (poll_oneoff.rs lines 92-124).  Each
join is either pending (`none`) or ready with a list of events
(`some evts`); the step walks every join, appends the events of all
ready joins, and is ready if and only if at least one event was
collected. -/
def pollStep (joins : List (Option (List Event))) : Option (List Event) :=
  let evts := joins.foldl
    (fun evts j =>
      match j with
      | none => evts
      | some e => evts ++ e)
    []
  if evts.isEmpty then none else some evts

/-- The clock-expiry event synthesized for one recorded clock
subscription when the timeout fires (poll_oneoff.rs lines 343-348). -/
def clockEvent (c : SubscriptionClock × Nat) : Event :=
  ⟨c.2, .success, .clock, 0⟩

/-- The result closure passed to the deep-sleep helper
(poll_oneoff.rs lines 325-370), reduced to the event list handed to
`process_events`: a ready batch passes its events through, a timeout
synthesizes one clock event per recorded clock subscription, a
would-block (`Errno::Again`) becomes the empty event list, and any
other error is only logged (`none`: `process_events` is not called). -/
def handleSleepResult (clock_subs : List (SubscriptionClock × Nat)) :
    Except Errno (List Event) → Option (List Event)
  | .ok evts => some evts
  | .error .timedout => some (clock_subs.map clockEvent)
  | .error .again => some []
  | .error _ => none

/-- The output of `process_events`: the contents of the guest event
array and the value written to `nevents`. -/
structure PollOutput where
  events : Nat → Option Event
  nevents : Nat

/-- The event-writing loop of `process_events`
(poll_oneoff.rs lines 55-60). -/
def writeEventsGo (out : Nat → Option Event) (events_seen : Nat) :
    List Event → (Nat → Option Event) × Nat
  | [] => (out, events_seen)
  | e :: rest =>
    writeEventsGo (fun i => if i = events_seen then some e else out i) (events_seen + 1) rest

/-- `process_events` (poll_oneoff.rs lines 52-65): writes the triggered
events into the guest event array at successive indices, writes the
count to `nevents`, and returns `Errno::Success`. -/
def process_events (out : Nat → Option Event) (evts : List Event) : PollOutput × Errno :=
  let r := writeEventsGo out 0 evts
  (⟨r.1, r.2⟩, .success)

/-- Modelled from the spec: `__asyncify_with_deep_sleep_ext` is not in
the source excerpt.  Per the spec "a zero timeout performs exactly one
non-blocking poll of `awaitable` and resumes immediately with whatever
partial result is available"; the would-block outcome of that single
poll is delivered to the result closure as `Errno::Again` (which the
handler in poll_oneoff.rs line 361 expects on the non-blocking path),
and a ready batch delivers its value. -/
def deepSleepNonblocking (batchFirstPoll : Option (List Event)) : Except Errno (List Event) :=
  match batchFirstPoll with
  | some evts => .ok evts
  | none => .error .again

/-- The observable outcome of a non-blocking `poll_oneoff` after the
batch's single poll step: the event list chosen by the result closure,
written to guest memory by `process_events`. -/
def pollNonblockingResult (out : Nat → Option Event)
    (clock_subs : List (SubscriptionClock × Nat))
    (joins : List (Option (List Event))) : Option (PollOutput × Errno) :=
  (handleSleepResult clock_subs (deepSleepNonblocking (pollStep joins))).map (process_events out)

/-! ## proc_fork (lib/wasi/src/syscalls/wasix/proc_fork.rs) -/

/-- The guest memory-stack layout bounds (`env.layout.stack_lower` and
`env.layout.stack_upper`). -/
structure MemLayout where
  stack_lower : Nat
  stack_upper : Nat
deriving DecidableEq, Repr

/-- The four bytes of `(pid : u32).to_ne_bytes()`, taking native
endianness to be little-endian. -/
def natToBytes4 (n : Nat) : List Nat :=
  [n % 256, n / 256 % 256, n / 256 ^ 2 % 256, n / 256 ^ 3 % 256]

/-- Decoding of four little-endian bytes back into a `u32` value. -/
def bytes4ToNat : List Nat → Nat
  | [a, b, c, d] => a + 256 * b + 256 ^ 2 * c + 256 ^ 3 * d
  | _ => 0

/-- Result of the copy-mode pid patch: either a trap that exits the
process with the given code, or the patched memory stack. -/
inductive ForkPatchResult where
  | trap (code : Errno)
  | patched (memory_stack : List Nat)
deriving DecidableEq, Repr

/-- The pid-patch step of copy-mode `proc_fork`
(proc_fork.rs lines 196-225).  The target offset must satisfy
`pid_offset >= stack_lower` and `pid_offset + 4 <= stack_upper`;
`offset := stack_upper - pid_offset` must not exceed the captured
memory stack's length (the "active" part); otherwise the process traps
with `Errno::Memviolation` and the stack is not patched.  On success
the four bytes of the child pid replace the stack bytes starting at
`pstart := memory_stack.len() - offset`. -/
def patchForkPid (layout : MemLayout) (memory_stack : List Nat)
    (pid_offset : Nat) (child_pid : Nat) : ForkPatchResult :=
  let val_bytes := natToBytes4 child_pid
  if layout.stack_lower ≤ pid_offset ∧ pid_offset + val_bytes.length ≤ layout.stack_upper then
    let offset := layout.stack_upper - pid_offset
    if memory_stack.length < offset then
      .trap .memviolation
    else
      let pstart := memory_stack.length - offset
      .patched
        (memory_stack.take pstart ++ val_bytes ++ memory_stack.drop (pstart + val_bytes.length))
  else
    .trap .memviolation

/-- The tail of the copy-mode unwind continuation
(proc_fork.rs lines 144-239): the task-manager spawn result is mapped
for logging and then discarded with `.ok()` inside a statement, so the
continuation proceeds to the pid patch and the parent rewind whether or
not the child task was accepted.  The returned pair records the spawn
outcome next to the patch result actually used for the parent. -/
def forkCopyAfterUnwind (spawn_accepted : Bool) (layout : MemLayout)
    (memory_stack : List Nat) (pid_offset : Nat) (child_pid : Nat) :
    Bool × ForkPatchResult :=
  (spawn_accepted, patchForkPid layout memory_stack pid_offset child_pid)

/-- Byte-wise write of a buffer into guest memory at an address
(the model of `pid_ptr.write` and of rewind writing a captured stack
back into the guest's addressable region). -/
def writeBytes (mem : Nat → Nat) : Nat → List Nat → Nat → Nat
  | _, [], a => mem a
  | addr, b :: bs, a => writeBytes (fun x => if x = addr then b else mem x) (addr + 1) bs a

/-- Byte-wise capture of `n` bytes of guest memory starting at `base`
(the model of unwind capturing the active memory stack). -/
def captureStack (mem : Nat → Nat) : Nat → Nat → List Nat
  | _, 0 => []
  | base, n + 1 => mem base :: captureStack mem (base + 1) n

/-- Reading the `u32` at an address of guest memory (the model of
`pid_ptr.read` on line 26 of proc_fork.rs). -/
def readBytes4 (mem : Nat → Nat) (addr : Nat) : Nat :=
  bytes4ToNat [mem addr, mem (addr + 1), mem (addr + 2), mem (addr + 3)]

/-- The observable copy-mode fork pipeline, composed from the source
steps: write `0` to `pid_ptr` before capture (line 61); unwind captures
the active memory stack, the top `stackLen` bytes below `stack_upper`;
the child clones that stack before the patch (lines 135-136); the
parent's copy is patched with the child pid (lines 196-225); each side
then rewinds its own stack into its own memory image and, at the shared
resumption point, reads the pid result back from `pid_ptr` (line 26).
Returns `none` when the patch traps, otherwise
`some (parent's observed pid, child's observed pid)`. -/
def forkCopyRun (mem : Nat → Nat) (layout : MemLayout) (stackLen : Nat)
    (pid_offset : Nat) (child_pid : Nat) : Option (Nat × Nat) :=
  let mem0 := writeBytes mem pid_offset (natToBytes4 0)
  let memory_stack := captureStack mem0 (layout.stack_upper - stackLen) stackLen
  let child_stack := memory_stack
  match patchForkPid layout memory_stack pid_offset child_pid with
  | .trap _ => none
  | .patched parent_stack =>
    let parent_mem := writeBytes mem0 (layout.stack_upper - stackLen) parent_stack
    let child_mem := writeBytes mem0 (layout.stack_upper - stackLen) child_stack
    some (readBytes4 parent_mem pid_offset, readBytes4 child_mem pid_offset)

/-! ## Concrete instances used by witnesses and counterexamples -/

/-- A clock subscription triple as handed to `poll_oneoff_internal`. -/
def mkClockSub (id : Clockid) (t ud : Nat) : Sub3 :=
  (none, 0, ⟨ud, .clock, ⟨0, ⟨id, t⟩⟩⟩)

/-- An fd-read subscription triple as handed to `poll_oneoff_internal`. -/
def mkFdReadSub (fd ud : Nat) : Sub3 :=
  (none, 0, ⟨ud, .fdRead, ⟨fd, ⟨.realtime, 0⟩⟩⟩)

/-- A filesystem with an empty fd table. -/
def fsEmpty : FsState := ⟨fun _ => .error .badf, .ok (), .ok ()⟩

/-- A filesystem in which every fd resolves to an entry that lacks
`Rights::POLL_FD_READWRITE` (with a pollable inode). -/
def fsNoRights : FsState := ⟨fun _ => .ok ⟨false, true⟩, .ok (), .ok ()⟩

/-- The validation state after processing one realtime clock
subscription with timeout `5` and userdata `1`. -/
def c1Acc : ClockAcc :=
  ⟨[(none, 0, ⟨1, .clock, ⟨0, ⟨.realtime, 5⟩⟩⟩)], [(⟨.realtime, 5⟩, 1)], 5⟩

/-- The stdout fd-read subscription used to refute the universal
rights-check claim. -/
def c2Sub : Subscription := ⟨7, .fdRead, ⟨1, ⟨.realtime, 0⟩⟩⟩

/-- The successful outcome of the two poll_oneoff passes on a
rights-less stdout subscription. -/
def c2OkVal : ClockAcc × List PollGuard :=
  (⟨[(some 1, 1, c2Sub)], [], durationMax⟩, [⟨1, 1, c2Sub⟩])

/-- The validation state after processing the same realtime clock
subscription (timeout `5`, userdata `1`) twice: the duplicate is
recorded in `processed` but skipped for `clock_subs`. -/
def c9Acc : ClockAcc :=
  ⟨[(none, 0, ⟨1, .clock, ⟨0, ⟨.realtime, 5⟩⟩⟩),
    (none, 0, ⟨1, .clock, ⟨0, ⟨.realtime, 5⟩⟩⟩)],
   [(⟨.realtime, 5⟩, 1)], 5⟩

/-- Pairwise distinctness of the `(clock id, userdata)` keys of the
recorded clock subscriptions. -/
def clockPairDistinct (l : List (SubscriptionClock × Nat)) : Prop :=
  List.Pairwise (fun a b => ¬(a.1.clock_id = b.1.clock_id ∧ a.2 = b.2)) l

/-! ## Helper lemmas -/

theorem pollStep_foldl (joins : List (Option (List Event))) (acc : List Event) :
    joins.foldl
        (fun evts j =>
          match j with
          | none => evts
          | some e => evts ++ e)
        acc
      = acc ++ (joins.filterMap id).flatten := by
  induction joins generalizing acc with
  | nil => simp
  | cons j rest ih =>
    cases j with
    | none => simpa using ih acc
    | some e => simp [ih (acc ++ e)]

theorem validateGo_append (fs : FsState) (l1 l2 : List Sub3) (acc : ClockAcc) :
    validateGo fs (l1 ++ l2) acc =
      match validateGo fs l1 acc with
      | .error e => .error e
      | .ok a => validateGo fs l2 a := by
  induction l1 generalizing acc with
  | nil => rfl
  | cons x rest ih =>
    simp only [List.cons_append, validateGo]
    cases validateStep fs acc x with
    | error e => rfl
    | ok a => exact ih a

/-! ## Claim theorems -/

/-- C8: each poll step of `PollBatch` visits every join and collects the
events of all joins that are ready at that step (their event lists in
join order), and the step resolves to `Ready` exactly when at least one
event was collected, staying `Pending` otherwise. -/
theorem pollBatch_step_collects_all_ready (joins : List (Option (List Event))) :
    pollStep joins =
      if (joins.filterMap id).flatten = [] then none
      else some (joins.filterMap id).flatten := by
  unfold pollStep
  rw [pollStep_foldl joins []]
  simp only [List.nil_append]
  by_cases h : (joins.filterMap id).flatten = []
  · simp [h]
  · simp [h, List.isEmpty_iff]

/-- C7: a non-blocking poll whose single batch poll finds no ready fd
yields the would-block result, which the handler converts into an empty
event list: nothing is written to the event buffer, `nevents` is set to
`0`, and the reported code is `Errno::Success`, not an error. -/
theorem poll_nonblocking_empty_success (out : Nat → Option Event)
    (clock_subs : List (SubscriptionClock × Nat))
    (joins : List (Option (List Event)))
    (h : pollStep joins = none) :
    pollNonblockingResult out clock_subs joins = some (⟨out, 0⟩, .success) := by
  unfold pollNonblockingResult deepSleepNonblocking
  rw [h]
  rfl

theorem poll_nonblocking_empty_success_witness :
    pollNonblockingResult (fun _ => none) [] [none] = some (⟨fun _ => none, 0⟩, .success) :=
  poll_nonblocking_empty_success (fun _ => none) [] [none] rfl

/-- C6: the clock-timeout value `1` is the designated sentinel that
collapses to a zero wait (the non-blocking `Some ZERO` asyncify time),
the distinct sentinel `0` collapses to an infinite wait (`None`), and
every other timeout value is used as the actual wait duration in
nanoseconds. -/
theorem poll_clock_timeout_sentinels (fs : FsState) (ud t : Nat)
    (h0 : t ≠ 0) (h1 : t ≠ 1) (h64 : t < 2 ^ 64) :
    (validateSubs fs [mkClockSub .realtime 1 ud]).map
        (fun a => asyncifyTime a.time_to_sleep) = .ok (some 0)
    ∧ (validateSubs fs [mkClockSub .realtime 0 ud]).map
        (fun a => asyncifyTime a.time_to_sleep) = .ok none
    ∧ (validateSubs fs [mkClockSub .realtime t ud]).map
        (fun a => asyncifyTime a.time_to_sleep) = .ok (some t)
    ∧ (1 : Nat) ≠ 0 := by
  have hd0 : durationMax ≠ 0 := by norm_num [durationMax]
  have hmax : t ≠ durationMax := by
    have h2 : (2 : Nat) ^ 64 ≤ durationMax := by norm_num [durationMax]
    omega
  refine ⟨rfl, ?_, ?_, one_ne_zero⟩
  · simp [validateSubs, validateGo, validateStep, mkClockSub, asyncifyTime, initAcc,
      Except.map, hd0]
  · simp [validateSubs, validateGo, validateStep, mkClockSub, asyncifyTime, initAcc,
      Except.map, h0, h1, hmax]

theorem poll_clock_timeout_sentinels_witness :
    (validateSubs fsEmpty [mkClockSub .realtime 1 3]).map
        (fun a => asyncifyTime a.time_to_sleep) = .ok (some 0)
    ∧ (validateSubs fsEmpty [mkClockSub .realtime 0 3]).map
        (fun a => asyncifyTime a.time_to_sleep) = .ok none
    ∧ (validateSubs fsEmpty [mkClockSub .realtime 77 3]).map
        (fun a => asyncifyTime a.time_to_sleep) = .ok (some 77)
    ∧ (1 : Nat) ≠ 0 :=
  poll_clock_timeout_sentinels fsEmpty 3 77 (by decide) (by decide) (by norm_num)

/-- C1, counterexample: with two realtime clock subscriptions of
timeouts `5` then `10`, the computed `time_to_sleep` is `10`, the
timeout of the last-processed subscription, not the minimum `5`. -/
theorem poll_timeout_not_minimum_cex :
    (validateSubs fsEmpty [mkClockSub .realtime 5 1, mkClockSub .realtime 10 2]).map
        ClockAcc.time_to_sleep = .ok 10
    ∧ (10 : Nat) ≠ min 5 10 := ⟨rfl, by decide⟩

/-- C1, amended: `time_to_sleep` is overwritten by each non-duplicate,
non-sentinel clock subscription, so the wait duration used for the
batch is the timeout of the last such subscription in processing order
(not the minimum across all clock subscriptions). -/
theorem poll_timeout_last_clock_wins (fs : FsState) (subs : List Sub3) (acc : ClockAcc)
    (id : Clockid) (t ud : Nat)
    (h : validateSubs fs subs = .ok acc)
    (hid : id = .realtime ∨ id = .monotonic)
    (h0 : t ≠ 0) (h1 : t ≠ 1)
    (hdup : (acc.clock_subs.any fun c => c.1.clock_id = id ∧ c.2 = ud) = false) :
    (validateSubs fs (subs ++ [mkClockSub id t ud])).map ClockAcc.time_to_sleep = .ok t := by
  unfold validateSubs at h ⊢
  rw [validateGo_append, h]
  rcases hid with hid | hid <;> subst hid <;>
    simp only [validateGo, validateStep, mkClockSub, Bool.false_eq_true, hdup] <;>
    simp [Except.map, h0, h1]

theorem poll_timeout_last_clock_wins_witness :
    (validateSubs fsEmpty ([mkClockSub .realtime 5 1] ++ [mkClockSub .realtime 10 2])).map
        ClockAcc.time_to_sleep = .ok 10 :=
  poll_timeout_last_clock_wins fsEmpty [mkClockSub .realtime 5 1] c1Acc
    .realtime 10 2 rfl (Or.inl rfl) (by decide) (by decide) rfl

/-- C4: if the fork-result location fails the captured-stack range
check — it lies below `stack_lower`, its four bytes do not fit below
`stack_upper`, or its distance from `stack_upper` exceeds the active
captured stack length — then copy-mode fork traps with
`Errno::Memviolation` and no patched stack is produced. -/
theorem fork_pid_patch_out_of_range_traps (layout : MemLayout) (memory_stack : List Nat)
    (pid_offset child_pid : Nat)
    (h : ¬(layout.stack_lower ≤ pid_offset
            ∧ pid_offset + 4 ≤ layout.stack_upper
            ∧ layout.stack_upper - pid_offset ≤ memory_stack.length)) :
    patchForkPid layout memory_stack pid_offset child_pid = .trap .memviolation := by
  unfold patchForkPid
  have hlen : (natToBytes4 child_pid).length = 4 := rfl
  by_cases hc : layout.stack_lower ≤ pid_offset
      ∧ pid_offset + (natToBytes4 child_pid).length ≤ layout.stack_upper
  · rw [if_pos hc]
    rw [hlen] at hc
    have : memory_stack.length < layout.stack_upper - pid_offset := by omega
    rw [if_pos this]
  · rw [if_neg hc]

theorem fork_pid_patch_out_of_range_traps_witness :
    patchForkPid ⟨0, 8⟩ [] 0 7 = .trap .memviolation :=
  fork_pid_patch_out_of_range_traps ⟨0, 8⟩ [] 0 7 (by simp)

/-- C3 (evaluation at the failing input): when the task manager rejects
the child spawn (`spawn_accepted = false`), the copy-mode continuation
still patches the positive child pid into the parent's captured stack
and proceeds to the parent rewind — the spawn outcome has no influence
on the result — so the fork is reported to the caller as successful
rather than unsuccessful. -/
theorem fork_spawn_rejection_ignored :
    forkCopyAfterUnwind false ⟨0, 8⟩ [9, 9, 9, 9, 9, 9, 9, 9] 4 7
      = (false, .patched [9, 9, 9, 9, 7, 0, 0, 0])
    ∧ ∀ (s1 s2 : Bool) (l : MemLayout) (m : List Nat) (o p : Nat),
        (forkCopyAfterUnwind s1 l m o p).2 = (forkCopyAfterUnwind s2 l m o p).2 :=
  ⟨rfl, fun _ _ _ _ _ _ => rfl⟩

/-- C2, counterexample: a poll call on stdout (fd `1`) whose fd-table
entry lacks `Rights::POLL_FD_READWRITE` does not return
`Errno::Access`: both passes succeed and a pollable guard for stdout is
constructed with no rights check. -/
theorem poll_rights_check_bypassed_stdout_cex :
    fsNoRights.get_fd 1 = .ok ⟨false, true⟩
    ∧ pollOneoffChecks fsNoRights [mkFdReadSub 1 7] = .ok c2OkVal
    ∧ (Except.ok c2OkVal : Except Errno (ClockAcc × List PollGuard)) ≠ .error .access :=
  ⟨rfl, rfl, fun hc => Except.noConfusion hc⟩

/-- C2, amended: for an fd-read or fd-write subscription on an fd other
than stdin / stdout / stderr whose fd-table entry lacks
`Rights::POLL_FD_READWRITE`, validation fails with `Errno::Access` as
soon as it reaches that subscription (provided the earlier
subscriptions validated), and since guard construction only runs on the
output of a completed validation pass, no pollable guard is constructed
for any fd of such a call.  Subscriptions on fds 0, 1 and 2 bypass this
validation-pass check. -/
theorem poll_missing_rights_access_nonstd (fs : FsState) (pre post : List Sub3)
    (acc : ClockAcc) (ty : Eventtype) (fd ud peb0 : Nat) (fd0 : Option Nat)
    (ck : SubscriptionClock) (e : FdEntry)
    (hpre : validateGo fs pre initAcc = .ok acc)
    (hty : ty = .fdRead ∨ ty = .fdWrite)
    (h0 : fd ≠ __WASI_STDIN_FILENO) (h1 : fd ≠ __WASI_STDOUT_FILENO)
    (h2 : fd ≠ __WASI_STDERR_FILENO)
    (hfd : fs.get_fd fd = .ok e) (hr : e.rights_poll_fd_readwrite = false) :
    validateSubs fs (pre ++ (fd0, peb0, ⟨ud, ty, ⟨fd, ck⟩⟩) :: post) = .error .access
    ∧ pollOneoffChecks fs (pre ++ (fd0, peb0, ⟨ud, ty, ⟨fd, ck⟩⟩) :: post)
        = .error .access := by
  have hv : validateSubs fs (pre ++ (fd0, peb0, ⟨ud, ty, ⟨fd, ck⟩⟩) :: post)
      = .error .access := by
    unfold validateSubs
    rw [validateGo_append, hpre]
    have h0n : fd ≠ 0 := h0
    have h1n : fd ≠ 1 := h1
    have h2n : fd ≠ 2 := h2
    rcases hty with hty | hty <;> subst hty <;>
      simp [validateGo, validateStep, h0n, h1n, h2n, hfd, hr,
        __WASI_STDIN_FILENO, __WASI_STDOUT_FILENO, __WASI_STDERR_FILENO]
  refine ⟨hv, ?_⟩
  unfold pollOneoffChecks
  rw [hv]

theorem poll_missing_rights_access_nonstd_witness :
    validateSubs fsNoRights ([] ++ (none, 0, ⟨7, .fdRead, ⟨5, ⟨.realtime, 0⟩⟩⟩) :: [])
        = .error .access
    ∧ pollOneoffChecks fsNoRights ([] ++ (none, 0, ⟨7, .fdRead, ⟨5, ⟨.realtime, 0⟩⟩⟩) :: [])
        = .error .access :=
  poll_missing_rights_access_nonstd fsNoRights [] [] initAcc .fdRead 5 7 0 none
    ⟨.realtime, 0⟩ ⟨false, true⟩ rfl (Or.inl rfl) (by decide) (by decide) (by decide)
    rfl rfl

/-- C10, counterexample: a subscription naming stdin (fd `0`) does not
bypass the capability validation entirely: when the fd-table entry for
fd `0` lacks `Rights::POLL_FD_READWRITE`, the call fails with
`Errno::Access` (raised during guard construction). -/
theorem poll_stdin_rights_checked_cex :
    fsNoRights.get_fd 0 = .ok ⟨false, true⟩
    ∧ pollOneoffChecks fsNoRights [mkFdReadSub 0 7] = .error .access := ⟨rfl, rfl⟩

/-- C10, amended: subscriptions naming stdout (fd `1`) or stderr
(fd `2`) bypass the fd-table lookup and the `POLL_FD_READWRITE` check
in both passes (the outcome is independent of the fd table), so they
never fail the rights check; stdin (fd `0`) bypasses only the
validation pass — the outcome of that pass is likewise independent of
the fd table — but is looked up and rights-checked during guard
construction, where a rights-less entry yields `Errno::Access`. -/
theorem poll_std_fd_validation_bypass
    (get1 get2 : Nat → Except Errno FdEntry) (so se : Except Errno Unit)
    (ty : Eventtype) (fd ud peb0 : Nat) (ck : SubscriptionClock) (e : FdEntry)
    (hty : ty = .fdRead ∨ ty = .fdWrite)
    (hfd : fd = __WASI_STDOUT_FILENO ∨ fd = __WASI_STDERR_FILENO)
    (hstdin : get1 0 = .ok e) (hr : e.rights_poll_fd_readwrite = false) :
    pollOneoffChecks ⟨get1, so, se⟩ [(none, peb0, ⟨ud, ty, ⟨fd, ck⟩⟩)]
        = pollOneoffChecks ⟨get2, so, se⟩ [(none, peb0, ⟨ud, ty, ⟨fd, ck⟩⟩)]
    ∧ validateSubs ⟨get1, so, se⟩ [(none, peb0, ⟨ud, ty, ⟨0, ck⟩⟩)]
        = validateSubs ⟨get2, so, se⟩ [(none, peb0, ⟨ud, ty, ⟨0, ck⟩⟩)]
    ∧ pollOneoffChecks ⟨get1, so, se⟩ [(none, peb0, ⟨ud, ty, ⟨0, ck⟩⟩)]
        = .error .access := by
  refine ⟨?_, ?_, ?_⟩
  · rcases hty with hty | hty <;> rcases hfd with hfd | hfd <;> subst hty <;> subst hfd <;> rfl
  · rcases hty with hty | hty <;> subst hty <;> rfl
  · rcases hty with hty | hty <;> subst hty <;>
      simp [pollOneoffChecks, validateSubs, validateGo, validateStep, buildGuardsGo,
        initAcc, hstdin, hr, __WASI_STDIN_FILENO, __WASI_STDOUT_FILENO, __WASI_STDERR_FILENO]

theorem poll_std_fd_validation_bypass_witness :
    pollOneoffChecks ⟨fsNoRights.get_fd, .ok (), .ok ()⟩
          [(none, 0, ⟨7, .fdRead, ⟨1, ⟨.realtime, 0⟩⟩⟩)]
        = pollOneoffChecks ⟨fun _ => .error .badf, .ok (), .ok ()⟩
          [(none, 0, ⟨7, .fdRead, ⟨1, ⟨.realtime, 0⟩⟩⟩)]
    ∧ validateSubs ⟨fsNoRights.get_fd, .ok (), .ok ()⟩
          [(none, 0, ⟨7, .fdRead, ⟨0, ⟨.realtime, 0⟩⟩⟩)]
        = validateSubs ⟨fun _ => .error .badf, .ok (), .ok ()⟩
          [(none, 0, ⟨7, .fdRead, ⟨0, ⟨.realtime, 0⟩⟩⟩)]
    ∧ pollOneoffChecks ⟨fsNoRights.get_fd, .ok (), .ok ()⟩
          [(none, 0, ⟨7, .fdRead, ⟨0, ⟨.realtime, 0⟩⟩⟩)]
        = .error .access :=
  poll_std_fd_validation_bypass fsNoRights.get_fd (fun _ => .error .badf) (.ok ()) (.ok ())
    .fdRead 1 7 0 ⟨.realtime, 0⟩ ⟨false, true⟩ (Or.inl rfl) (Or.inl rfl) rfl rfl

theorem validateStep_distinct (fs : FsState) (acc : ClockAcc) (x : Sub3) (acc' : ClockAcc)
    (hd : clockPairDistinct acc.clock_subs)
    (h : validateStep fs acc x = .ok acc') : clockPairDistinct acc'.clock_subs := by
  obtain ⟨fd0, peb, s⟩ := x
  obtain ⟨ud, ty, data⟩ := s
  cases ty <;> simp only [validateStep] at h
  · split at h
    · cases h; exact hd
    · split at h
      · exact Except.noConfusion h
      · split at h
        · cases h; exact hd
        · exact Except.noConfusion h
  · split at h
    · cases h; exact hd
    · split at h
      · exact Except.noConfusion h
      · split at h
        · cases h; exact hd
        · exact Except.noConfusion h
  · split at h
    · split at h
      · cases h; exact hd
      · split at h
        · cases h; exact hd
        · split at h
          · cases h; exact hd
          · rename_i hnodup _ _
            cases h
            unfold clockPairDistinct at hd ⊢
            rw [List.pairwise_append]
            refine ⟨hd, List.pairwise_singleton _ _, ?_⟩
            intro a ha b hb hab
            simp only [List.mem_singleton] at hb
            subst hb
            simp only [List.any_eq_true, decide_eq_true_eq, not_exists, not_and] at hnodup
            exact hnodup a ha hab.1 hab.2
    · exact Except.noConfusion h

theorem validateGo_distinct (fs : FsState) (l : List Sub3) (acc acc' : ClockAcc)
    (hd : clockPairDistinct acc.clock_subs)
    (h : validateGo fs l acc = .ok acc') : clockPairDistinct acc'.clock_subs := by
  induction l generalizing acc with
  | nil =>
    simp only [validateGo] at h
    cases h
    exact hd
  | cons x rest ih =>
    simp only [validateGo] at h
    cases hs : validateStep fs acc x with
    | error e => rw [hs] at h; exact Except.noConfusion h
    | ok acc1 =>
      rw [hs] at h
      exact ih acc1 (validateStep_distinct fs acc x acc1 hd hs) h

theorem pairwise_key_filter_le_one {α : Type _} (p : α → Bool) (R : α → α → Prop)
    (hR : ∀ a b, R a b → p a = true → p b = true → False) :
    ∀ l : List α, List.Pairwise R l → (l.filter p).length ≤ 1 := by
  intro l hl
  induction hl with
  | nil => simp
  | @cons a l ha _ ih =>
    by_cases hp : p a = true
    · have hnil : l.filter p = [] := by
        rw [List.eq_nil_iff_forall_not_mem]
        intro b hb
        rw [List.mem_filter] at hb
        exact hR a b (ha b hb.1) hp hb.2
      simp [List.filter_cons, hp, hnil]
    · simp only [List.filter_cons, hp, if_neg]
      simpa using ih

/-- C9: within one `poll_oneoff` call the recorded clock subscriptions
have pairwise-distinct `(clock id, userdata)` keys — identical clock
subscriptions are deduplicated — and when the timeout fires, exactly
one clock-expiry event is synthesized per recorded entry, hence at most
one per distinct `(clock id, userdata)` pair. -/
theorem poll_clock_subs_deduplicated (fs : FsState) (subs : List Sub3) (acc : ClockAcc)
    (h : validateSubs fs subs = .ok acc) :
    handleSleepResult acc.clock_subs (.error .timedout)
        = some (acc.clock_subs.map clockEvent)
    ∧ ∀ (id : Clockid) (ud : Nat),
        (acc.clock_subs.filter fun c => c.1.clock_id = id ∧ c.2 = ud).length ≤ 1 := by
  refine ⟨rfl, ?_⟩
  intro id ud
  have hd : clockPairDistinct acc.clock_subs :=
    validateGo_distinct fs subs initAcc acc List.Pairwise.nil h
  refine pairwise_key_filter_le_one _ _ ?_ _ hd
  intro a b hab ha hb
  simp only [decide_eq_true_eq] at ha hb
  exact hab ⟨ha.1.trans hb.1.symm, ha.2.trans hb.2.symm⟩

theorem poll_clock_subs_deduplicated_witness :
    handleSleepResult c9Acc.clock_subs (.error .timedout)
        = some (c9Acc.clock_subs.map clockEvent)
    ∧ (c9Acc.clock_subs.filter fun c => c.1.clock_id = .realtime ∧ c.2 = 1).length ≤ 1 :=
  ⟨(poll_clock_subs_deduplicated fsEmpty
      [mkClockSub .realtime 5 1, mkClockSub .realtime 5 1] c9Acc rfl).1,
   (poll_clock_subs_deduplicated fsEmpty
      [mkClockSub .realtime 5 1, mkClockSub .realtime 5 1] c9Acc rfl).2 .realtime 1⟩

theorem captureStack_length (mem : Nat → Nat) :
    ∀ (n base : Nat), (captureStack mem base n).length = n := by
  intro n
  induction n with
  | zero => intro base; rfl
  | succ n ih => intro base; simp [captureStack, ih]

theorem captureStack_getD (mem : Nat → Nat) :
    ∀ (n base i : Nat), i < n → (captureStack mem base n).getD i 0 = mem (base + i) := by
  intro n
  induction n with
  | zero => intro base i hi; omega
  | succ n ih =>
    intro base i hi
    cases i with
    | zero => simp [captureStack]
    | succ i =>
      have := ih (base + 1) i (by omega)
      simp only [captureStack, List.getD_cons_succ]
      rw [this]
      ring_nf

theorem writeBytes_lt :
    ∀ (bs : List Nat) (mem : Nat → Nat) (addr a : Nat), a < addr →
      writeBytes mem addr bs a = mem a := by
  intro bs
  induction bs with
  | nil => intro mem addr a h; rfl
  | cons b bs ih =>
    intro mem addr a h
    simp only [writeBytes]
    rw [ih _ (addr + 1) a (by omega)]
    simp [Nat.ne_of_lt h]

theorem writeBytes_getD :
    ∀ (bs : List Nat) (mem : Nat → Nat) (addr i : Nat), i < bs.length →
      writeBytes mem addr bs (addr + i) = bs.getD i 0 := by
  intro bs
  induction bs with
  | nil => intro mem addr i h; simp at h
  | cons b bs ih =>
    intro mem addr i h
    cases i with
    | zero =>
      simp only [writeBytes, Nat.add_zero]
      rw [writeBytes_lt bs _ (addr + 1) addr (by omega)]
      simp
    | succ i =>
      simp only [writeBytes, List.getD_cons_succ]
      have harr : addr + (i + 1) = (addr + 1) + i := by omega
      rw [harr, ih _ (addr + 1) i (by simpa using h)]

theorem bytes4_roundtrip (n : Nat) (h : n < 2 ^ 32) :
    bytes4ToNat (natToBytes4 n) = n := by
  simp only [natToBytes4, bytes4ToNat]
  have h' : n < 4294967296 := by norm_num at h ⊢; omega
  norm_num
  omega

theorem patchForkPid_in_range (layout : MemLayout) (stk : List Nat) (off pid : Nat)
    (h1 : layout.stack_lower ≤ off) (h2 : off + 4 ≤ layout.stack_upper)
    (h3 : layout.stack_upper - off ≤ stk.length) :
    patchForkPid layout stk off pid =
      .patched (stk.take (stk.length - (layout.stack_upper - off)) ++ natToBytes4 pid
        ++ stk.drop (stk.length - (layout.stack_upper - off) + 4)) := by
  unfold patchForkPid
  have hlen : (natToBytes4 pid).length = 4 := rfl
  rw [if_pos ⟨h1, by rw [hlen]; exact h2⟩, if_neg (by omega)]
  simp [hlen]

/-- C5: after a copy-mode `proc_fork` whose pid location lies in the
active captured stack range, the parent resumes observing exactly the
positive child pid (patched into its captured memory stack before its
rewind), while the child — whose copy of the captured stack was taken
before the patch, after `0` was written to the pid location before
capture — resumes observing exactly `0` at the same program point. -/
theorem fork_parent_pid_child_zero (mem : Nat → Nat) (layout : MemLayout)
    (stackLen pid_offset child_pid : Nat)
    (hlow : layout.stack_lower ≤ pid_offset)
    (hhigh : pid_offset + 4 ≤ layout.stack_upper)
    (hactive : layout.stack_upper - pid_offset ≤ stackLen)
    (hstack : stackLen ≤ layout.stack_upper)
    (hpid32 : child_pid < 2 ^ 32)
    (hpos : 0 < child_pid) :
    forkCopyRun mem layout stackLen pid_offset child_pid = some (child_pid, 0)
    ∧ child_pid ≠ 0 := by
  refine ⟨?_, by omega⟩
  simp only [forkCopyRun]
  set base := layout.stack_upper - stackLen with hbase
  set mem0 := writeBytes mem pid_offset (natToBytes4 0) with hmem0
  set ms := captureStack mem0 base stackLen with hms
  have hmslen : ms.length = stackLen := captureStack_length mem0 stackLen base
  rw [patchForkPid_in_range layout ms pid_offset child_pid hlow hhigh
    (by rw [hmslen]; exact hactive)]
  rw [hmslen]
  set pstart := stackLen - (layout.stack_upper - pid_offset) with hpstart
  set P := ms.take pstart ++ natToBytes4 child_pid ++ ms.drop (pstart + 4) with hP
  have hoff4 : 4 ≤ layout.stack_upper - pid_offset := by omega
  have hps4 : pstart + 4 ≤ stackLen := by omega
  have hPlen : P.length = stackLen := by
    rw [hP]
    simp only [List.length_append, List.length_take, List.length_drop, hmslen]
    have hnb : (natToBytes4 child_pid).length = 4 := rfl
    rw [hnb]
    omega
  have haddr : ∀ j : Nat, pid_offset + j = base + (pstart + j) := by intro j; omega
  have readP : ∀ j : Nat, j < 4 →
      writeBytes mem0 base P (pid_offset + j) = (natToBytes4 child_pid).getD j 0 := by
    intro j hj
    rw [haddr j, writeBytes_getD P mem0 base (pstart + j) (by rw [hPlen]; omega)]
    rw [hP, List.append_assoc,
      List.getD_append_right _ _ _ _ (by rw [List.length_take]; omega)]
    have hix : pstart + j - (ms.take pstart).length = j := by
      rw [List.length_take]; omega
    rw [hix, List.getD_append _ _ _ _
      (by have hn : (natToBytes4 child_pid).length = 4 := rfl; omega)]
  have readC : ∀ j : Nat, j < 4 →
      writeBytes mem0 base ms (pid_offset + j) = 0 := by
    intro j hj
    rw [haddr j, writeBytes_getD ms mem0 base (pstart + j) (by rw [hmslen]; omega)]
    rw [hms, captureStack_getD mem0 stackLen base (pstart + j) (by omega)]
    rw [← haddr j, hmem0, writeBytes_getD (natToBytes4 0) mem pid_offset j
      (by have hn : (natToBytes4 0).length = 4 := rfl; omega)]
    have hz : natToBytes4 0 = [0, 0, 0, 0] := rfl
    rw [hz]
    interval_cases j <;> rfl
  have r0 : writeBytes mem0 base P pid_offset = (natToBytes4 child_pid).getD 0 0 := by
    have := readP 0 (by omega); simpa using this
  have c0 : writeBytes mem0 base ms pid_offset = 0 := by
    have := readC 0 (by omega); simpa using this
  simp only [readBytes4]
  rw [r0, readP 1 (by omega), readP 2 (by omega), readP 3 (by omega),
    c0, readC 1 (by omega), readC 2 (by omega), readC 3 (by omega)]
  have hrt : bytes4ToNat
      [(natToBytes4 child_pid).getD 0 0, (natToBytes4 child_pid).getD 1 0,
       (natToBytes4 child_pid).getD 2 0, (natToBytes4 child_pid).getD 3 0]
      = child_pid := by
    have : [(natToBytes4 child_pid).getD 0 0, (natToBytes4 child_pid).getD 1 0,
        (natToBytes4 child_pid).getD 2 0, (natToBytes4 child_pid).getD 3 0]
        = natToBytes4 child_pid := rfl
    rw [this]
    exact bytes4_roundtrip child_pid hpid32
  rw [hrt]
  have hz4 : bytes4ToNat [0, 0, 0, 0] = 0 := rfl
  rw [hz4]

theorem fork_parent_pid_child_zero_witness :
    forkCopyRun (fun _ => 9) ⟨0, 8⟩ 8 4 7 = some (7, 0) ∧ (7 : Nat) ≠ 0 :=
  fork_parent_pid_child_zero (fun _ => 9) ⟨0, 8⟩ 8 4 7 (by decide) (by decide)
    (by decide) (by decide) (by norm_num) (by decide)

end WasmerSpec
